import Mathlib

/-!
Verification of the serial-capture script `sercap.py` (present in the
repository twice: `src/tools/sercap.py` and `src/tests/sercap.py`).

The script opens a serial port, flushes the input buffer, sleeps 0.5 s,
writes a single space byte, records `start_reading_ts`, then loops:
`d = s.read()`; if `len(d) != 0` it writes `d` to stdout; if the sentinel
byte `"\x03"` is in `d` it sets `reading = False`; then (unconditionally)
it computes the elapsed seconds since `start_reading_ts` and, if that
exceeds `timeout_s = 7`, sets `reading = False` and `timeout = True`.
After the loop a `finally` block closes the port when it was opened, and
the process exits 1 when `timeout` else 0.

Embedding: a run's interaction with the environment is a trace of
`ReadEvent`s, one per loop iteration: the chunk returned by `s.read()`
(bytes as `Nat`) together with the value of
`(now_ts - start_reading_ts).total_seconds()` observed at that
iteration's timeout check, modelled as a rational.  `loop` consumes the
trace exactly as the source loop does, returning the chunks read, the
bytes written to stdout, and `some exitCode` when the loop terminated
(`none` when the trace is exhausted with `reading` still true, i.e. the
run is still going).  In the source, an iteration where the sentinel is
seen sets `reading := False` and then still runs the timeout comparison,
so when both conditions hold in one iteration the `timeout` flag wins and
the exit status is 1.
-/

namespace Sercap

/-- `sentinel = "\x03"`: the single byte 0x03. -/
def sentinel : Nat := 3

/-- `timeout_s = 7`, compared against `elapsed.total_seconds()`. -/
def timeout_s : ℚ := 7

/-- One loop iteration's environment observations: the chunk `d`
returned by `s.read()` and the elapsed seconds since `start_reading_ts`
observed at that iteration's timeout check. -/
structure ReadEvent where
  chunk : List Nat
  elapsed : ℚ
deriving DecidableEq

/-- Result of running the read loop on a trace: the chunks read in
order, the bytes written to stdout in order, and `some code` when the
loop ended and the process exited with `code` (`none`: trace exhausted
while `reading` was still true). -/
structure LoopResult where
  reads : List (List Nat)
  out : List Nat
  exit : Option Nat
deriving DecidableEq

/-- The `while reading` loop of `src/tools/sercap.py` (lines 40-52)
together with the exit-status branch (lines 57-60).  Each iteration:
stdout gets `d` when `len(d) != 0`; `sentinel in d` ends the loop; the
elapsed check runs in every iteration, also one where the sentinel was
just seen, and on `elapsed > timeout_s` ends the loop with
`timeout = True`, which makes the process exit 1; otherwise the exit
status is 0. -/
def loop : List ReadEvent → LoopResult
  | [] => ⟨[], [], none⟩
  | ev :: rest =>
    let written := if ev.chunk.length ≠ 0 then ev.chunk else []
    if sentinel ∈ ev.chunk then
      if timeout_s < ev.elapsed then ⟨[ev.chunk], written, some 1⟩
      else ⟨[ev.chunk], written, some 0⟩
    else
      if timeout_s < ev.elapsed then ⟨[ev.chunk], written, some 1⟩
      else
        let r := loop rest
        ⟨ev.chunk :: r.reads, written ++ r.out, r.exit⟩

/-- Observable external actions of the process, used to verify
ordering of the setup steps and resource handling. -/
inductive Ev
  | opened
  | flushed
  | slept (secs : ℚ)
  | wrote (bs : List Nat)
  | startedTimer
  | readChunk (c : List Nat)
  | stdout (c : List Nat)
  | closed
  | exited (code : Nat)
  | raised
deriving DecidableEq

/-- Events of the read loop: each iteration reads a chunk and, when it
is non-empty, writes it to stdout; second component as in `loop.exit`,
with `some true` meaning the `timeout` flag was set. -/
def loopEvs : List ReadEvent → List Ev × Option Bool
  | [] => ([], none)
  | ev :: rest =>
    let evs := Ev.readChunk ev.chunk ::
      (if ev.chunk.length ≠ 0 then [Ev.stdout ev.chunk] else [])
    if sentinel ∈ ev.chunk then
      if timeout_s < ev.elapsed then (evs, some true) else (evs, some false)
    else
      if timeout_s < ev.elapsed then (evs, some true)
      else
        let p := loopEvs rest
        (evs ++ p.1, p.2)

/-- The setup actions between the successful `serial.Serial(...)` open
and the first read: `s.flushInput()`, `time.sleep(0.5)`, `s.write(" ")`
(one space byte, 0x20 = 32), and recording `start_reading_ts` — the
instant all `ReadEvent.elapsed` values are measured from. -/
def setupEvs : List Ev :=
  [Ev.flushed, Ev.slept (1/2), Ev.wrote [32], Ev.startedTimer]

/-- Where an unexpected exception interrupts the `try` body, if any:
`setup k` = after the open and `k` of the setup steps; `loopIter k` =
after `k` completed loop iterations. -/
inductive ErrPoint
  | noErr
  | setup (k : Nat)
  | loopIter (k : Nat)
deriving DecidableEq

/-- Whole-run event log.  `openOk = false`: `serial.Serial(...)` raised,
`s` stays `None`, the `finally` block closes nothing and the exception
propagates.  Otherwise the setup steps run, then the loop; on any exit
of the `try` body — loop ended, or an exception at `e` — the `finally`
block closes the port once; a normal loop end then reaches
`sys.exit(1 if timeout else 0)`.  When the trace is exhausted with
`reading` still true the run is still in the loop: no close, no exit
yet. -/
def run (openOk : Bool) (e : ErrPoint) (trace : List ReadEvent) : List Ev :=
  if openOk then
    Ev.opened ::
      (match e with
       | ErrPoint.setup k => setupEvs.take k ++ [Ev.closed, Ev.raised]
       | ErrPoint.loopIter k =>
           setupEvs ++ (loopEvs (trace.take k)).1 ++ [Ev.closed, Ev.raised]
       | ErrPoint.noErr =>
           match loopEvs trace with
           | (evs, some t) =>
               setupEvs ++ evs ++ [Ev.closed, Ev.exited (if t then 1 else 0)]
           | (evs, none) => setupEvs ++ evs)
  else [Ev.raised]

/-- A run configuration in which the `try` body finishes (by exception
or by the loop terminating), so the `finally` block and what follows
have run. -/
def completedRun (e : ErrPoint) (trace : List ReadEvent) : Prop :=
  e ≠ ErrPoint.noErr ∨ (loopEvs trace).2.isSome

end Sercap

namespace SercapTests

/-- `sentinel = "\x03"` in `src/tests/sercap.py` (byte-identical copy). -/
def sentinel : Nat := 3

/-- `timeout_s = 7` in `src/tests/sercap.py`. -/
def timeout_s : ℚ := 7

/-- The `while reading` loop and exit-status branch of
`src/tests/sercap.py` (lines 21-33 and 38-41), a byte-identical copy of
the tools script, embedded independently. -/
def loop : List Sercap.ReadEvent → Sercap.LoopResult
  | [] => ⟨[], [], none⟩
  | ev :: rest =>
    let written := if ev.chunk.length ≠ 0 then ev.chunk else []
    if sentinel ∈ ev.chunk then
      if timeout_s < ev.elapsed then ⟨[ev.chunk], written, some 1⟩
      else ⟨[ev.chunk], written, some 0⟩
    else
      if timeout_s < ev.elapsed then ⟨[ev.chunk], written, some 1⟩
      else
        let r := loop rest
        ⟨ev.chunk :: r.reads, written ++ r.out, r.exit⟩

end SercapTests

namespace Sercap

/-- Writing a chunk to stdout only when it is non-empty contributes the
same bytes as always appending it. -/
lemma written_eq (c : List Nat) : (if c.length ≠ 0 then c else []) = c := by
  cases c <;> simp

/-- An iteration whose chunk holds the sentinel ends the loop at once:
that chunk is the only read, it goes to stdout whole, and the exit code
is decided by the timeout comparison that still runs. -/
lemma loop_cons_sentinel (ev : ReadEvent) (rest : List ReadEvent)
    (hs : sentinel ∈ ev.chunk) :
    loop (ev :: rest) =
      ⟨[ev.chunk], ev.chunk, some (if timeout_s < ev.elapsed then 1 else 0)⟩ := by
  simp only [loop, written_eq, if_pos hs]
  split <;> simp

/-- An iteration observing elapsed time over the limit ends the loop
with the `timeout` flag set, hence exit code 1. -/
lemma loop_cons_timeout (ev : ReadEvent) (rest : List ReadEvent)
    (ht : timeout_s < ev.elapsed) :
    loop (ev :: rest) = ⟨[ev.chunk], ev.chunk, some 1⟩ := by
  simp only [loop, written_eq]
  split <;> simp [if_pos ht]

/-- An iteration with no sentinel and elapsed time within the limit
forwards its chunk and continues with the rest of the trace. -/
lemma loop_cons_quiet (ev : ReadEvent) (rest : List ReadEvent)
    (hs : sentinel ∉ ev.chunk) (ht : ev.elapsed ≤ timeout_s) :
    loop (ev :: rest) =
      ⟨ev.chunk :: (loop rest).reads, ev.chunk ++ (loop rest).out,
        (loop rest).exit⟩ := by
  simp only [loop, written_eq, if_neg hs, if_neg (not_lt.mpr ht)]

/-- Running the loop across a quiet initial trace segment (no sentinel,
within time) reads and forwards all its chunks, then behaves as the loop
on the remaining trace. -/
lemma loop_clean_append (pre rest : List ReadEvent)
    (h : ∀ e ∈ pre, sentinel ∉ e.chunk ∧ e.elapsed ≤ timeout_s) :
    loop (pre ++ rest) =
      ⟨pre.map ReadEvent.chunk ++ (loop rest).reads,
        (pre.map ReadEvent.chunk).flatten ++ (loop rest).out,
        (loop rest).exit⟩ := by
  induction pre with
  | nil => simp
  | cons e pre ih =>
    obtain ⟨hs, ht⟩ := h e (by simp)
    rw [List.cons_append, loop_cons_quiet e _ hs ht,
      ih (fun x hx => h x (by simp [hx]))]
    simp

/-- Stdout is the concatenation of the chunks the loop read, in order. -/
lemma loop_out_eq_flatten (t : List ReadEvent) :
    (loop t).out = (loop t).reads.flatten := by
  induction t with
  | nil => rfl
  | cons ev rest ih =>
    by_cases hs : sentinel ∈ ev.chunk
    · rw [loop_cons_sentinel ev rest hs]; simp
    · by_cases ht : timeout_s < ev.elapsed
      · rw [loop_cons_timeout ev rest ht]; simp
      · rw [loop_cons_quiet ev rest hs (not_lt.mp ht)]; simp [ih]

/-- Dropping empty lists does not change a concatenation. -/
lemma flatten_filter_nonempty (L : List (List Nat)) :
    (L.filter (fun c => !c.isEmpty)).flatten = L.flatten := by
  induction L with
  | nil => rfl
  | cons c L ih => cases c <;> simp [ih]

end Sercap

namespace Sercap

/-- C1: in a run whose trace reaches, after sentinel-free in-time
iterations, a chunk that contains the sentinel while elapsed time is
within the 7 s window, the process exits 0 and stdout is exactly the
bytes received up to and including the sentinel's position (the bytes of
that chunk after the sentinel also appear). -/
theorem sentinel_within_window_exits_zero (pre : List ReadEvent)
    (ev : ReadEvent) (rest : List ReadEvent)
    (hpre : ∀ e ∈ pre, sentinel ∉ e.chunk ∧ e.elapsed ≤ timeout_s)
    (hs : sentinel ∈ ev.chunk) (ht : ev.elapsed ≤ timeout_s) :
    (loop (pre ++ ev :: rest)).exit = some 0 ∧
    ∃ u v, ev.chunk = u ++ sentinel :: v ∧
      (loop (pre ++ ev :: rest)).out =
        (pre.map ReadEvent.chunk).flatten ++ (u ++ sentinel :: v) := by
  rw [loop_clean_append pre _ hpre, loop_cons_sentinel ev rest hs]
  obtain ⟨u, v, huv⟩ := List.append_of_mem hs
  exact ⟨by simp [if_neg (not_lt.mpr ht)], u, v, huv, by simp [huv]⟩

/-- C1 witness: the spec scenario, device produces `"init ok\x03"`
(bytes of `init ok` then 0x03) at elapsed 1 s. -/
theorem sentinel_within_window_exits_zero_witness :
    (∀ e ∈ ([] : List ReadEvent), sentinel ∉ e.chunk ∧ e.elapsed ≤ timeout_s) ∧
    sentinel ∈ [105, 110, 105, 116, 32, 111, 107, 3] ∧
    (1 : ℚ) ≤ timeout_s ∧
    ((loop [⟨[105, 110, 105, 116, 32, 111, 107, 3], 1⟩]).exit = some 0 ∧
      ∃ u v, [105, 110, 105, 116, 32, 111, 107, 3] = u ++ sentinel :: v ∧
        (loop [⟨[105, 110, 105, 116, 32, 111, 107, 3], 1⟩]).out =
          (([] : List ReadEvent).map ReadEvent.chunk).flatten ++
            (u ++ sentinel :: v)) :=
  ⟨by simp, by decide, by decide,
    sentinel_within_window_exits_zero [] ⟨[105, 110, 105, 116, 32, 111, 107, 3], 1⟩ []
      (by simp) (by decide) (by decide)⟩

/-- All-empty chunks concatenate to the empty byte sequence. -/
lemma flatten_eq_nil_of_all_nil (L : List (List Nat))
    (h : ∀ x ∈ L, x = []) : L.flatten = [] := by
  simp [List.flatten_eq_nil_iff]; exact h

/-- C2: in a run whose trace passes sentinel-free in-time iterations and
then observes elapsed time over 7 s, the process exits 1; stdout holds
the chunks read so far, so if every read returned zero bytes, stdout is
empty. -/
theorem timeout_without_sentinel_exits_one (pre : List ReadEvent)
    (ev : ReadEvent) (rest : List ReadEvent)
    (hpre : ∀ e ∈ pre, sentinel ∉ e.chunk ∧ e.elapsed ≤ timeout_s)
    (ht : timeout_s < ev.elapsed) :
    (loop (pre ++ ev :: rest)).exit = some 1 ∧
    (loop (pre ++ ev :: rest)).out =
      (pre.map ReadEvent.chunk).flatten ++ ev.chunk ∧
    ((∀ e ∈ pre, e.chunk = []) → ev.chunk = [] →
      (loop (pre ++ ev :: rest)).out = []) := by
  rw [loop_clean_append pre _ hpre, loop_cons_timeout ev rest ht]
  refine ⟨rfl, rfl, fun hall hev => ?_⟩
  have : (pre.map ReadEvent.chunk).flatten = [] :=
    flatten_eq_nil_of_all_nil _ (by
      intro x hx
      obtain ⟨e, he, hex⟩ := List.mem_map.mp hx
      exact hex ▸ hall e he)
  simp [this, hev]

/-- C2 witness: the spec scenario, nothing for 8 s: empty reads within
the window, then an empty read at elapsed 8 s. -/
theorem timeout_without_sentinel_exits_one_witness :
    (∀ e ∈ [(⟨[], 4⟩ : ReadEvent)], sentinel ∉ e.chunk ∧ e.elapsed ≤ timeout_s) ∧
    timeout_s < (8 : ℚ) ∧
    ((loop [⟨[], 4⟩, ⟨[], 8⟩]).exit = some 1 ∧
      (loop [⟨[], 4⟩, ⟨[], 8⟩]).out =
        ([(⟨[], 4⟩ : ReadEvent)].map ReadEvent.chunk).flatten ++ [] ∧
      ((∀ e ∈ [(⟨[], 4⟩ : ReadEvent)], e.chunk = []) → ([] : List Nat) = [] →
        (loop [⟨[], 4⟩, ⟨[], 8⟩]).out = [])) :=
  ⟨by decide, by decide,
    timeout_without_sentinel_exits_one [⟨[], 4⟩] ⟨[], 8⟩ [] (by decide) (by decide)⟩

/-- C3 counterexample: a chunk containing the sentinel read at elapsed
8 s > 7 s.  The source still runs the timeout comparison after setting
`reading = False`, so `timeout = True` wins and the exit status is 1,
not the success the claim demands. -/
theorem sentinel_late_not_success :
    sentinel ∈ ([3] : List Nat) ∧
    (loop [⟨[3], 8⟩]).exit = some 1 ∧
    (loop [⟨[3], 8⟩]).exit ≠ some 0 := by decide

/-- C3 amended: a sentinel-bearing chunk always ends the loop in its
iteration, but the elapsed-time check still runs in that iteration: the
run succeeds (exit 0) only when elapsed is within the 7 s limit there,
and is a timeout (exit 1) when elapsed exceeds it. -/
theorem sentinel_stops_loop_timeout_still_checked (pre : List ReadEvent)
    (ev : ReadEvent) (rest : List ReadEvent)
    (hpre : ∀ e ∈ pre, sentinel ∉ e.chunk ∧ e.elapsed ≤ timeout_s)
    (hs : sentinel ∈ ev.chunk) :
    (loop (pre ++ ev :: rest)).exit =
      some (if timeout_s < ev.elapsed then 1 else 0) := by
  rw [loop_clean_append pre _ hpre, loop_cons_sentinel ev rest hs]

/-- C3 amended witness: both sides of the amendment at concrete inputs —
sentinel at elapsed 8 s exits 1 even though later trace events exist and
are never read. -/
theorem sentinel_stops_loop_timeout_still_checked_witness :
    (∀ e ∈ ([] : List ReadEvent), sentinel ∉ e.chunk ∧ e.elapsed ≤ timeout_s) ∧
    sentinel ∈ ([1, 3] : List Nat) ∧
    (loop ([] ++ (⟨[1, 3], 8⟩ : ReadEvent) :: [⟨[5], 9⟩])).exit =
      some (if timeout_s < (8 : ℚ) then 1 else 0) :=
  ⟨by simp, by decide,
    sentinel_stops_loop_timeout_still_checked [] ⟨[1, 3], 8⟩ [⟨[5], 9⟩]
      (by simp) (by decide)⟩

/-- C5: stdout is exactly the concatenation, in read order, of the
non-empty chunks the loop read, up to and including its final
iteration — no reordering, truncation or transformation; in particular a
sentinel-bearing final chunk is forwarded whole. -/
theorem out_is_ordered_concat_of_reads (t : List ReadEvent) :
    (loop t).out = ((loop t).reads.filter (fun c => !c.isEmpty)).flatten := by
  rw [flatten_filter_nonempty, loop_out_eq_flatten]

end Sercap

namespace Sercap

/-- Two traces with the same chunk observations and the same elapsed
observations are the same trace. -/
lemma trace_ext (t₁ t₂ : List ReadEvent)
    (hc : t₁.map ReadEvent.chunk = t₂.map ReadEvent.chunk)
    (he : t₁.map ReadEvent.elapsed = t₂.map ReadEvent.elapsed) : t₁ = t₂ := by
  induction t₁ generalizing t₂ with
  | nil => cases t₂ <;> simp_all
  | cons e₁ t₁ ih =>
    cases t₂ with
    | nil => simp_all
    | cons e₂ t₂ =>
      simp only [List.map_cons, List.cons.injEq] at hc he
      cases e₁; cases e₂
      simp_all [ih t₂ hc.2 he.2]

/-- C7: the capture is deterministic in its input trace: two runs that
observe the same sequence of read chunks and the same elapsed-time
observations write the same bytes to stdout and exit with the same
code. -/
theorem capture_deterministic (t₁ t₂ : List ReadEvent)
    (hc : t₁.map ReadEvent.chunk = t₂.map ReadEvent.chunk)
    (he : t₁.map ReadEvent.elapsed = t₂.map ReadEvent.elapsed) :
    (loop t₁).out = (loop t₂).out ∧ (loop t₁).exit = (loop t₂).exit := by
  rw [trace_ext t₁ t₂ hc he]
  exact ⟨rfl, rfl⟩

/-- C7 witness: the same one-chunk trace observed twice. -/
theorem capture_deterministic_witness :
    ([(⟨[3], 1⟩ : ReadEvent)].map ReadEvent.chunk =
      [(⟨[3], 1⟩ : ReadEvent)].map ReadEvent.chunk) ∧
    ([(⟨[3], 1⟩ : ReadEvent)].map ReadEvent.elapsed =
      [(⟨[3], 1⟩ : ReadEvent)].map ReadEvent.elapsed) ∧
    ((loop [⟨[3], 1⟩]).out = (loop [⟨[3], 1⟩]).out ∧
      (loop [⟨[3], 1⟩]).exit = (loop [⟨[3], 1⟩]).exit) :=
  ⟨rfl, rfl, capture_deterministic [⟨[3], 1⟩] [⟨[3], 1⟩] rfl rfl⟩

/-- C9: with every elapsed observation within the 7 s limit, the loop
terminates through the sentinel branch (exit 0) exactly when the
delivered byte stream — the chunks concatenated — contains the byte
0x03, for every way that stream is partitioned into chunks: a chunk
boundary can never hide a delivered sentinel, because the single-byte
sentinel is tested by membership in each whole chunk. -/
theorem sentinel_detection_chunking_invariant (t : List ReadEvent)
    (h : ∀ e ∈ t, e.elapsed ≤ timeout_s) :
    (loop t).exit = some 0 ↔ sentinel ∈ (t.map ReadEvent.chunk).flatten := by
  induction t with
  | nil => simp [loop]
  | cons ev rest ih =>
    by_cases hs : sentinel ∈ ev.chunk
    · rw [loop_cons_sentinel ev rest hs]
      simp [hs, if_neg (not_lt.mpr (h ev (by simp)))]
    · rw [loop_cons_quiet ev rest hs (h ev (by simp))]
      simp only [List.map_cons, List.flatten_cons, List.mem_append, hs,
        false_or]
      exact ih (fun e he => h e (by simp [he]))

/-- C9 witness: sentinel split across chunks at elapsed within limit. -/
theorem sentinel_detection_chunking_invariant_witness :
    (∀ e ∈ [(⟨[1, 2], 1⟩ : ReadEvent), ⟨[3, 4], 2⟩], e.elapsed ≤ timeout_s) ∧
    ((loop [⟨[1, 2], 1⟩, ⟨[3, 4], 2⟩]).exit = some 0 ↔
      sentinel ∈ ([(⟨[1, 2], 1⟩ : ReadEvent), ⟨[3, 4], 2⟩].map
        ReadEvent.chunk).flatten) :=
  ⟨by decide,
    sentinel_detection_chunking_invariant [⟨[1, 2], 1⟩, ⟨[3, 4], 2⟩] (by decide)⟩

/-- C10: once a sentinel-bearing chunk is processed, the loop is over:
that chunk is the last chunk read (nothing from the remaining trace is
read) and its bytes are the last bytes forwarded to stdout. -/
theorem sentinel_chunk_is_last (pre : List ReadEvent) (ev : ReadEvent)
    (rest : List ReadEvent)
    (hpre : ∀ e ∈ pre, sentinel ∉ e.chunk ∧ e.elapsed ≤ timeout_s)
    (hs : sentinel ∈ ev.chunk) :
    (loop (pre ++ ev :: rest)).reads = pre.map ReadEvent.chunk ++ [ev.chunk] ∧
    (loop (pre ++ ev :: rest)).out =
      (pre.map ReadEvent.chunk).flatten ++ ev.chunk := by
  rw [loop_clean_append pre _ hpre, loop_cons_sentinel ev rest hs]
  exact ⟨rfl, rfl⟩

/-- C10 witness: after the sentinel chunk, the pending events
`⟨[9], 3⟩` are never read and never forwarded. -/
theorem sentinel_chunk_is_last_witness :
    (∀ e ∈ [(⟨[7], 1⟩ : ReadEvent)], sentinel ∉ e.chunk ∧ e.elapsed ≤ timeout_s) ∧
    sentinel ∈ ([3, 8] : List Nat) ∧
    ((loop ([⟨[7], 1⟩] ++ (⟨[3, 8], 2⟩ : ReadEvent) :: [⟨[9], 3⟩])).reads =
        [(⟨[7], 1⟩ : ReadEvent)].map ReadEvent.chunk ++ [[3, 8]] ∧
      (loop ([⟨[7], 1⟩] ++ (⟨[3, 8], 2⟩ : ReadEvent) :: [⟨[9], 3⟩])).out =
        ([(⟨[7], 1⟩ : ReadEvent)].map ReadEvent.chunk).flatten ++ [3, 8]) :=
  ⟨by decide, by decide,
    sentinel_chunk_is_last [⟨[7], 1⟩] ⟨[3, 8], 2⟩ [⟨[9], 3⟩]
      (by decide) (by decide)⟩

end Sercap

/-- C8: the two copies of the script, `src/tools/sercap.py` and
`src/tests/sercap.py`, have the same embedded behavior on every input
trace: the same chunks read, the same bytes on stdout and the same exit
code. -/
theorem tools_tests_same_behavior (t : List Sercap.ReadEvent) :
    SercapTests.loop t = Sercap.loop t := by
  induction t with
  | nil => rfl
  | cons ev rest ih =>
    have hsent : SercapTests.sentinel = Sercap.sentinel := rfl
    have htime : SercapTests.timeout_s = Sercap.timeout_s := rfl
    simp only [SercapTests.loop, Sercap.loop, hsent, htime, ih]

namespace Sercap

/-- The read loop emits only read and stdout events: in particular it
never closes the port. -/
lemma count_closed_loopEvs (t : List ReadEvent) :
    (loopEvs t).1.count Ev.closed = 0 := by
  induction t with
  | nil => rfl
  | cons ev rest ih =>
    by_cases hs : sentinel ∈ ev.chunk <;>
      by_cases ht : timeout_s < ev.elapsed <;>
      by_cases hc : ev.chunk.length ≠ 0 <;>
      simp [loopEvs, hs, ht, hc, List.count_cons, List.count_append, ih]

/-- None of the setup steps closes the port. -/
lemma count_closed_setupEvs : setupEvs.count Ev.closed = 0 := by decide

/-- Nor does any initial segment of them. -/
lemma count_closed_setupEvs_take (k : Nat) :
    (setupEvs.take k).count Ev.closed = 0 :=
  Nat.le_zero.mp (count_closed_setupEvs ▸
    (List.take_sublist k setupEvs).count_le Ev.closed)

/-- C4: on every exit path of a run that opened the port — sentinel
found, timeout, or an unexpected exception after the open — the
`finally` block closes the port exactly once; when `serial.Serial(...)`
itself raised, `s` is still `None` and no close is attempted. -/
theorem port_closed_exactly_once (openOk : Bool) (e : ErrPoint)
    (trace : List ReadEvent) (h : openOk = true → completedRun e trace) :
    (run openOk e trace).count Ev.closed = if openOk then 1 else 0 := by
  cases openOk with
  | false => simp [run]
  | true =>
    cases e with
    | setup k =>
        simp [run, List.count_cons, List.count_append,
          count_closed_setupEvs_take k]
    | loopIter k =>
        simp [run, List.count_cons, List.count_append,
          count_closed_setupEvs, count_closed_loopEvs (trace.take k)]
    | noErr =>
        rcases h rfl with habs | hsome
        · exact absurd rfl habs
        · have h1 : (loopEvs trace).1.count Ev.closed = 0 :=
            count_closed_loopEvs trace
          rcases hEq : loopEvs trace with ⟨evs, st⟩
          rw [hEq] at hsome h1
          cases st with
          | none => simp at hsome
          | some b =>
              simp [run, hEq, List.count_cons, List.count_append,
                count_closed_setupEvs, h1]

/-- C4 witness: a completed sentinel run closes the port once; the
theorem applied with `openOk = true`. -/
theorem port_closed_exactly_once_witness :
    (true = true → completedRun ErrPoint.noErr [⟨[3], 1⟩]) ∧
    (run true ErrPoint.noErr [⟨[3], 1⟩]).count Ev.closed =
      (if true then 1 else 0) :=
  ⟨fun _ => Or.inr (by decide),
    port_closed_exactly_once true ErrPoint.noErr [⟨[3], 1⟩]
      (fun _ => Or.inr (by decide))⟩

end Sercap

namespace Sercap

/-- C6: a run that opens the port performs, in this order and before
any capture read: open, flush the input buffer, pause 0.5 s, write the
single wake byte (space, 0x20), then record the capture start instant
the timeout deadline is measured from (`ReadEvent.elapsed` is the time
since that instant, so the deadline is anchored after the wake byte, not
at process start).  A response whose very first byte is the sentinel is
therefore captured only after those steps, and such a run — read within
the window — forwards that chunk whole, closes the port and exits 0. -/
theorem setup_precedes_capture_and_sentinel_first :
    (∀ trace : List ReadEvent, ∃ tail,
      run true ErrPoint.noErr trace =
        [Ev.opened, Ev.flushed, Ev.slept (1/2), Ev.wrote [32],
          Ev.startedTimer] ++ tail) ∧
    (∀ (c : List Nat) (q : ℚ) (rest : List ReadEvent), q ≤ timeout_s →
      run true ErrPoint.noErr (⟨sentinel :: c, q⟩ :: rest) =
        [Ev.opened, Ev.flushed, Ev.slept (1/2), Ev.wrote [32],
          Ev.startedTimer, Ev.readChunk (sentinel :: c),
          Ev.stdout (sentinel :: c), Ev.closed, Ev.exited 0]) := by
  constructor
  · intro trace
    rcases hEq : loopEvs trace with ⟨evs, st⟩
    cases st with
    | none => exact ⟨evs, by simp [run, hEq, setupEvs]⟩
    | some b =>
        exact ⟨evs ++ [Ev.closed, Ev.exited (if b then 1 else 0)],
          by simp [run, hEq, setupEvs]⟩
  · intro c q rest hq
    have hEq : loopEvs (⟨sentinel :: c, q⟩ :: rest) =
        ([Ev.readChunk (sentinel :: c), Ev.stdout (sentinel :: c)],
          some false) := by
      simp [loopEvs, if_neg (not_lt.mpr hq)]
    simp [run, hEq, setupEvs]

/-- C6 witness: the theorem's two parts at a concrete one-event trace
whose chunk starts with the sentinel at elapsed 1 s. -/
theorem setup_precedes_capture_and_sentinel_first_witness :
    (∃ tail, run true ErrPoint.noErr [⟨[3], 1⟩] =
      [Ev.opened, Ev.flushed, Ev.slept (1/2), Ev.wrote [32],
        Ev.startedTimer] ++ tail) ∧
    ((1 : ℚ) ≤ timeout_s ∧
      run true ErrPoint.noErr (⟨sentinel :: [], 1⟩ :: []) =
        [Ev.opened, Ev.flushed, Ev.slept (1/2), Ev.wrote [32],
          Ev.startedTimer, Ev.readChunk (sentinel :: []),
          Ev.stdout (sentinel :: []), Ev.closed, Ev.exited 0]) :=
  ⟨setup_precedes_capture_and_sentinel_first.1 [⟨[3], 1⟩],
    by decide,
    setup_precedes_capture_and_sentinel_first.2 [] 1 [] (by decide)⟩

end Sercap
